import Mathlib

/-!
Verification of the Sapling repository.

Part 1 embeds the Granola sync script (`src/services/granola-sync/sync.py`).
Python strings are modelled as lists of Unicode code points (`PyStr`), with
the ASCII fragment of Python's character classes (`str.lower`, `\w`, `\s`)
made explicit.  Part 2 models the transcript-based coordination protocol of
the specification (State Compiler and Agent Stop Gate); that code is not in
the repository snapshot, so those definitions are modelled from the spec.
-/

/-- A Python string, as its list of Unicode code points. -/
abbrev PyStr := List Nat

/-- Encode a Lean string literal as a `PyStr`. -/
def strN (s : String) : PyStr := s.toList.map Char.toNat

/-- ASCII model of Python's whitespace class (`\s`, `str.strip`):
space, tab, newline, carriage return, vertical tab, form feed. -/
def isWsN (c : Nat) : Bool := c == 32 || c == 9 || c == 10 || c == 13 || c == 11 || c == 12

/-- ASCII uppercase letter. -/
def isUpperN (c : Nat) : Bool := 65 ≤ c && c ≤ 90

/-- ASCII lowercase letter. -/
def isLowerN (c : Nat) : Bool := 97 ≤ c && c ≤ 122

/-- ASCII digit. -/
def isDigitN (c : Nat) : Bool := 48 ≤ c && c ≤ 57

/-- ASCII model of Python `str.lower` on one character. -/
def pyLowerN (c : Nat) : Nat := if isUpperN c then c + 32 else c

/-- ASCII model of the regex word class `\w`: letters, digits, underscore. -/
def isWordN (c : Nat) : Bool := isUpperN c || isLowerN c || isDigitN c || c == 95

/-- Python `str.strip()` with default (whitespace) argument. -/
def pyStripWs (l : PyStr) : PyStr := ((l.dropWhile isWsN).reverse.dropWhile isWsN).reverse

/-- The character class of `re.sub(r'[\s_-]+', '-', ...)`:
whitespace, underscore (95), hyphen (45). -/
def isSepN (c : Nat) : Bool := isWsN c || c == 95 || c == 45

/-- `re.sub(r'[\s_-]+', '-', text)`: every maximal run of separator
characters becomes a single hyphen.  (A hyphen at the head of the recursive
result can only come from a collapsed run, since `-` is itself a separator,
so adjacent runs are merged.) -/
def collapseSeps : PyStr → PyStr
  | [] => []
  | c :: rest =>
    if isSepN c then
      match collapseSeps rest with
      | [] => [45]
      | d :: ds => if d == 45 then 45 :: ds else 45 :: d :: ds
    else c :: collapseSeps rest

/-- Python `str.rstrip('-')`. -/
def rstripHyphen (l : PyStr) : PyStr := (l.reverse.dropWhile (· == 45)).reverse

/-- `slugify` from sync.py:
`text.lower().strip()`, then `re.sub(r'[^\w\s-]', '', text)`,
then `re.sub(r'[\s_-]+', '-', text)`, then `text[:50].rstrip('-')`. -/
def slugify (text : PyStr) : PyStr :=
  let t1 := pyStripWs (text.map pyLowerN)
  let t2 := t1.filter (fun c => isWordN c || isWsN c || c == 45)
  let t3 := collapseSeps t2
  rstripHyphen (t3.take 50)

theorem isUpperN_pyLowerN (c : Nat) : isUpperN (pyLowerN c) = false := by
  unfold pyLowerN
  by_cases h : isUpperN c = true
  · simp only [h, if_true]
    unfold isUpperN at *
    simp only [Bool.and_eq_true, decide_eq_true_eq] at h
    simp only [Bool.and_eq_false_iff, decide_eq_false_iff_not]
    omega
  · simp only [Bool.not_eq_true] at h
    simp [h]

theorem mem_collapseSeps {c : Nat} (l : PyStr) (h : c ∈ collapseSeps l) :
    c = 45 ∨ (c ∈ l ∧ isSepN c = false) := by
  induction l with
  | nil => simp [collapseSeps] at h
  | cons x rest ih =>
    by_cases hx : isSepN x = true
    · rw [collapseSeps, if_pos hx] at h
      rcases hrest : collapseSeps rest with _ | ⟨d, ds⟩ <;> rw [hrest] at h
      · simp at h
        exact Or.inl h
      · have h : c ∈ (if (d == 45) = true then 45 :: ds else 45 :: d :: ds) := h
        have hlift : c ∈ collapseSeps rest → c = 45 ∨ (c ∈ x :: rest ∧ isSepN c = false) := by
          intro hm
          rcases ih hm with h45 | ⟨hm2, hs⟩
          · exact Or.inl h45
          · exact Or.inr ⟨List.mem_cons_of_mem _ hm2, hs⟩
        by_cases hd : (d == 45) = true
        · rw [if_pos hd] at h
          rcases List.mem_cons.mp h with rfl | hmem
          · exact Or.inl rfl
          · exact hlift (by rw [hrest]; exact List.mem_cons_of_mem _ hmem)
        · rw [if_neg hd] at h
          rcases List.mem_cons.mp h with rfl | hmem
          · exact Or.inl rfl
          · exact hlift (by rw [hrest]; exact hmem)
    · rw [collapseSeps, if_neg hx] at h
      rcases List.mem_cons.mp h with hc | hmem
      · subst hc
        simp only [Bool.not_eq_true] at hx
        exact Or.inr ⟨List.mem_cons_self _ _, hx⟩
      · rcases ih hmem with h45 | ⟨hm, hs⟩
        · exact Or.inl h45
        · exact Or.inr ⟨List.mem_cons_of_mem _ hm, hs⟩

theorem length_rstripHyphen_le (l : PyStr) : (rstripHyphen l).length ≤ l.length := by
  unfold rstripHyphen
  calc (l.reverse.dropWhile (· == 45)).reverse.length
      = (l.reverse.dropWhile (· == 45)).length := List.length_reverse _
    _ ≤ l.reverse.length := (List.dropWhile_sublist _).length_le
    _ = l.length := List.length_reverse _

theorem mem_rstripHyphen {c : Nat} {l : PyStr} (h : c ∈ rstripHyphen l) : c ∈ l := by
  unfold rstripHyphen at h
  rw [List.mem_reverse] at h
  have := (List.dropWhile_sublist (l := l.reverse) (· == 45)).subset h
  exact List.mem_reverse.mp this

theorem getLast?_rstripHyphen (l : PyStr) : (rstripHyphen l).getLast? ≠ some 45 := by
  unfold rstripHyphen
  rw [List.getLast?_eq_head?_reverse, List.reverse_reverse]
  intro hcontra
  have := List.head?_dropWhile_not (· == 45) l.reverse
  rw [hcontra] at this
  simp at this

/-- C8: for every input string, `slugify` returns a string of length at most
50 with no whitespace, no underscores and no uppercase characters, and the
result does not end with a hyphen. -/
theorem slugify_spec (s : PyStr) :
    (slugify s).length ≤ 50 ∧
    (∀ c ∈ slugify s, isWsN c = false ∧ c ≠ 95 ∧ isUpperN c = false) ∧
    (slugify s).getLast? ≠ some 45 := by
  unfold slugify
  refine ⟨?_, ?_, getLast?_rstripHyphen _⟩
  · calc (rstripHyphen ((collapseSeps _).take 50)).length
        ≤ ((collapseSeps _).take 50).length := length_rstripHyphen_le _
      _ ≤ 50 := by simp
  · intro c hc
    have hc' := mem_rstripHyphen hc
    have hc'' := List.mem_of_mem_take hc'
    rcases mem_collapseSeps _ hc'' with h45 | ⟨hmem, hsep⟩
    · subst h45
      refine ⟨by decide, by decide, by decide⟩
    · have hws : isWsN c = false := by
        unfold isSepN at hsep
        simp only [Bool.or_eq_false_iff] at hsep
        exact hsep.1.1
      have h95 : c ≠ 95 := by
        unfold isSepN at hsep
        simp only [Bool.or_eq_false_iff, beq_eq_false_iff_ne, ne_eq] at hsep
        exact hsep.1.2
      have hup : isUpperN c = false := by
        have hmem1 := hc''
        have : c ∈ pyStripWs (s.map pyLowerN) := List.mem_of_mem_filter hmem
        unfold pyStripWs at this
        rw [List.mem_reverse] at this
        have h2 := (List.dropWhile_sublist _).subset this
        rw [List.mem_reverse] at h2
        have h3 := (List.dropWhile_sublist _).subset h2
        rcases List.mem_map.mp h3 with ⟨c', _, rfl⟩
        exact isUpperN_pyLowerN c'
      exact ⟨hws, h95, hup⟩

/-- Witness for C8 at a concrete input. -/
theorem slugify_spec_witness :
    (slugify (strN " Hello_World! ")).length ≤ 50 ∧
    isWsN 104 = false ∧ 104 ≠ 95 ∧ isUpperN 104 = false :=
  ⟨(slugify_spec (strN " Hello_World! ")).1,
   (slugify_spec (strN " Hello_World! ")).2.1 104 (by decide)⟩

/-! ## write_call_note / get_existing_doc_ids (sync.py) -/

/-- Python `"\n".join(parts)` (modelled on code-point lists). -/
def pyJoin (sep : PyStr) : List PyStr → PyStr
  | [] => []
  | [x] => x
  | x :: y :: rest => x ++ sep ++ pyJoin sep (y :: rest)

/-- Python `content.split("\n")`. -/
def splitNl : PyStr → List PyStr
  | [] => [[]]
  | c :: rest =>
    if c == 10 then [] :: splitNl rest
    else
      match splitNl rest with
      | [] => [[c]]
      | l :: ls => (c :: l) :: ls

/-- Python `s.startswith(pre)`. -/
def pyStartsWith : PyStr → PyStr → Bool
  | [], _ => true
  | _ :: _, [] => false
  | p :: ps, c :: cs => p == c && pyStartsWith ps cs

/-- Python `sub in s` (substring test). -/
def pyContains (sub : PyStr) : PyStr → Bool
  | [] => sub.isEmpty
  | c :: rest => pyStartsWith sub (c :: rest) || pyContains sub rest

/-- Python `line.split(":", 1)`: the part before the first colon, and
(when a colon occurs) the part after it. -/
def splitColon1 : PyStr → PyStr × Option PyStr
  | [] => ([], none)
  | c :: rest =>
    if c == 58 then ([], some rest)
    else
      let p := splitColon1 rest
      (c :: p.1, p.2)

/-- The literal `"granola_id:"` searched for by `get_existing_doc_ids`. -/
def granolaKey : PyStr := strN "granola_id:"

/-- The first line of a note that starts with `granola_id:`
(the `for line in content.split("\n")` loop with its `break`). -/
def firstGranolaLine (content : PyStr) : Option PyStr :=
  (splitNl content).find? (fun l => pyStartsWith granolaKey l)

/-- What `get_existing_doc_ids` extracts from one note file:
guard `"granola_id:" in content`, scan lines for the first one starting
with `granola_id:`, and return `line.split(":", 1)[1].strip()`. -/
def fileDocId (content : PyStr) : Option PyStr :=
  if pyContains granolaKey content then
    match firstGranolaLine content with
    | some line => (splitColon1 line).2.map pyStripWs
    | none => none
  else none

/-- `get_existing_doc_ids`, over the list of note-file contents found in the
output directory. -/
def getExistingDocIds (files : List PyStr) : List PyStr := files.filterMap fileDocId

/-- One attendee entry as built by `extract_call_data`
(`{"email": email, "name": name}`). -/
structure Attendee where
  email : PyStr
  name : PyStr
deriving DecidableEq

/-- A call record as returned by `extract_call_data`. -/
structure CallData where
  doc_id : PyStr
  title : PyStr
  date_str : PyStr
  date_display : PyStr
  enhanced_notes : PyStr
  attendees : List Attendee
  duration : Option Int
  meeting_link : Option PyStr
deriving DecidableEq

/-- `a.get("name") or a.get("email", "Unknown")` for an attendee dict built
by `extract_call_data` (both keys always present; empty name is falsy). -/
def attendeeName (a : Attendee) : PyStr := if a.name.isEmpty then a.email else a.name

/-- Python `str(n)` for a natural number. -/
def natToPy (n : Nat) : PyStr := (Nat.toDigits 10 n).map Char.toNat

/-- Python `str(i)` for an integer. -/
def intToPy (i : Int) : PyStr := if i < 0 then 45 :: natToPy i.natAbs else natToPy i.toNat

/-- `", ".join(attendee_names) if attendee_names else "None"`. -/
def attendeesStr (l : List Attendee) : PyStr :=
  if l.isEmpty then strN "None"
  else pyJoin (strN ", ") (l.map attendeeName)

/-- The frontmatter f-string of `write_call_note`. -/
def frontmatterOf (cd : CallData) : PyStr :=
  strN "---\nschema_version: 1.0.0\ndate: " ++ cd.date_str ++
  strN "\ntype: call\ngranola_id: " ++ cd.doc_id ++
  strN "\nsource: granola\npeople: []\ncompanies: []\ntags:\n  - date/" ++ cd.date_str ++
  strN "\n  - call\n---"

/-- The `content_parts` entries after the frontmatter, with the two
conditional entries (`duration` and `meeting_link` are Python-truthy tests). -/
def contentTail (cd : CallData) : List PyStr :=
  [[], strN "# " ++ cd.title, [],
   strN "**Date:** " ++ cd.date_display,
   strN "**Attendees:** " ++ attendeesStr cd.attendees]
  ++ (match cd.duration with
      | some d => if d = 0 then [] else [strN "**Duration:** " ++ intToPy d ++ strN " minutes"]
      | none => [])
  ++ (match cd.meeting_link with
      | some l => if l.isEmpty then [] else [strN "**Meeting Link:** " ++ l]
      | none => [])
  ++ [[], strN "---", [], strN "## Notes", [], cd.enhanced_notes, [], strN "---",
      strN "*Synced from Granola*", []]

/-- The `content_parts` list of `write_call_note`. -/
def contentParts (cd : CallData) : List PyStr := frontmatterOf cd :: contentTail cd

/-- `content = "\n".join(content_parts)`: the note text written by
`write_call_note`. -/
def noteContent (cd : CallData) : PyStr := pyJoin (strN "\n") (contentParts cd)

/-- The per-document loop of `main`: a document is skipped when its id is in
`existing_ids` or when `extract_call_data` returned `None`; otherwise its
call record is written. -/
def runSyncWrites (existing : List PyStr) (docs : List (PyStr × Option CallData)) :
    List CallData :=
  docs.filterMap (fun kv => if existing.contains kv.1 then none else kv.2)

/-- A call record whose identifying fields survive the frontmatter
round-trip: `doc_id` and `date_str` are newline-free and `doc_id` carries no
surrounding whitespace. -/
def CleanRecord (cd : CallData) : Prop :=
  10 ∉ cd.doc_id ∧ pyStripWs cd.doc_id = cd.doc_id ∧ 10 ∉ cd.date_str

instance (cd : CallData) : Decidable (CleanRecord cd) := by
  unfold CleanRecord; infer_instance

theorem not_mem_append' {α} {a : α} {l1 l2 : List α} (h1 : a ∉ l1) (h2 : a ∉ l2) :
    a ∉ l1 ++ l2 := fun hm => (List.mem_append.mp hm).elim h1 h2

theorem splitNl_append (a b : PyStr) (ha : 10 ∉ a) :
    splitNl (a ++ 10 :: b) = a :: splitNl b := by
  induction a with
  | nil => simp [splitNl]
  | cons c a ih =>
    have hc : (c == 10) = false := by
      have hne : c ≠ 10 := fun hcc => ha (hcc ▸ List.mem_cons_self _ _)
      simpa using hne
    have ha' : 10 ∉ a := fun hm => ha (List.mem_cons_of_mem _ hm)
    simp only [List.cons_append, splitNl, hc, Bool.false_eq_true, if_false,
      List.append_eq, ih ha']

theorem pyStartsWith_append_self (p r : PyStr) : pyStartsWith p (p ++ r) = true := by
  induction p with
  | nil => simp [pyStartsWith]
  | cons c p ih => simp [pyStartsWith, ih]

theorem pyContains_cons (sub : PyStr) (c : Nat) (s : PyStr)
    (h : pyContains sub s = true) : pyContains sub (c :: s) = true := by
  simp [pyContains, h]

theorem pyContains_append_right (sub a s : PyStr) (h : pyContains sub s = true) :
    pyContains sub (a ++ s) = true := by
  induction a with
  | nil => simpa using h
  | cons c a ih => simpa using pyContains_cons sub c (a ++ s) ih

theorem pyContains_self_append (sub r : PyStr) : pyContains sub (sub ++ r) = true := by
  rcases hsr : sub ++ r with _ | ⟨c, rest⟩
  · have : sub = [] := by
      rcases sub with _ | _
      · rfl
      · simp at hsr
    simp [this, pyContains]
  · rw [pyContains, ← hsr]
    simp [pyStartsWith_append_self]

theorem fgl_skip (a r : PyStr) (ha : 10 ∉ a)
    (hp : pyStartsWith granolaKey a = false) :
    firstGranolaLine (a ++ 10 :: r) = firstGranolaLine r := by
  unfold firstGranolaLine
  rw [splitNl_append a r ha, List.find?_cons_of_neg _ (by simp [hp])]

theorem fgl_hit (a r : PyStr) (ha : 10 ∉ a)
    (hp : pyStartsWith granolaKey a = true) :
    firstGranolaLine (a ++ 10 :: r) = some a := by
  unfold firstGranolaLine
  rw [splitNl_append a r ha, List.find?_cons_of_pos _ (by simp [hp])]

theorem splitColon1_granola (d : PyStr) :
    splitColon1 (strN "granola_id: " ++ d) = (strN "granola_id", some (32 :: d)) := rfl

theorem pyStripWs_cons_space (d : PyStr) : pyStripWs (32 :: d) = pyStripWs d := by
  unfold pyStripWs
  rw [List.dropWhile_cons_of_pos (by decide)]

theorem noteContent_shape (cd : CallData) :
    noteContent cd =
      strN "---" ++ 10 ::
      (strN "schema_version: 1.0.0" ++ 10 ::
      ((strN "date: " ++ cd.date_str) ++ 10 ::
      (strN "type: call" ++ 10 ::
      ((strN "granola_id: " ++ cd.doc_id) ++ 10 ::
      (strN "source: granola\npeople: []\ncompanies: []\ntags:\n  - date/" ++
       (cd.date_str ++ (strN "\n  - call\n---" ++
       (10 :: pyJoin (strN "\n") (contentTail cd))))))))) := by
  have h1 : noteContent cd =
      frontmatterOf cd ++ strN "\n" ++ pyJoin (strN "\n") (contentTail cd) := rfl
  rw [h1, frontmatterOf]
  rw [show strN "---\nschema_version: 1.0.0\ndate: " =
        strN "---" ++ 10 :: (strN "schema_version: 1.0.0" ++ 10 :: strN "date: ") from rfl]
  rw [show strN "\ntype: call\ngranola_id: " =
        10 :: (strN "type: call" ++ 10 :: strN "granola_id: ") from rfl]
  rw [show strN "\nsource: granola\npeople: []\ncompanies: []\ntags:\n  - date/" =
        10 :: strN "source: granola\npeople: []\ncompanies: []\ntags:\n  - date/" from rfl]
  rw [show strN "\n" = [10] from rfl]
  simp [List.append_assoc]

theorem fileDocId_noteContent (cd : CallData) (h : CleanRecord cd) :
    fileDocId (noteContent cd) = some cd.doc_id := by
  obtain ⟨hdi, hstrip, hds⟩ := h
  have hline3 : (10 : Nat) ∉ strN "date: " ++ cd.date_str :=
    not_mem_append' (by decide) hds
  have hline5 : (10 : Nat) ∉ strN "granola_id: " ++ cd.doc_id :=
    not_mem_append' (by decide) hdi
  have hfind : firstGranolaLine (noteContent cd) =
      some (strN "granola_id: " ++ cd.doc_id) := by
    rw [noteContent_shape]
    rw [fgl_skip _ _ (by decide) (by decide)]
    rw [fgl_skip _ _ (by decide) (by decide)]
    rw [fgl_skip _ _ hline3 rfl]
    rw [fgl_skip _ _ (by decide) (by decide)]
    exact fgl_hit _ _ hline5
      (by rw [show strN "granola_id: " ++ cd.doc_id =
                granolaKey ++ (32 :: cd.doc_id) from rfl]
          exact pyStartsWith_append_self _ _)
  have hcont : pyContains granolaKey (noteContent cd) = true := by
    rw [noteContent_shape]
    refine pyContains_append_right _ _ _ (pyContains_cons _ _ _ ?_)
    refine pyContains_append_right _ _ _ (pyContains_cons _ _ _ ?_)
    refine pyContains_append_right _ _ _ (pyContains_cons _ _ _ ?_)
    refine pyContains_append_right _ _ _ (pyContains_cons _ _ _ ?_)
    rw [show (strN "granola_id: " ++ cd.doc_id) ++ 10 ::
          (strN "source: granola\npeople: []\ncompanies: []\ntags:\n  - date/" ++
           (cd.date_str ++ (strN "\n  - call\n---" ++
           (10 :: pyJoin (strN "\n") (contentTail cd))))) =
        granolaKey ++ (32 :: (cd.doc_id ++ 10 ::
          (strN "source: granola\npeople: []\ncompanies: []\ntags:\n  - date/" ++
           (cd.date_str ++ (strN "\n  - call\n---" ++
           (10 :: pyJoin (strN "\n") (contentTail cd))))))) from by
        simp [granolaKey, List.append_assoc]
        rfl]
    exact pyContains_self_append _ _
  unfold fileDocId
  rw [hcont, if_pos rfl, hfind]
  show Option.map pyStripWs (splitColon1 (strN "granola_id: " ++ cd.doc_id)).2 =
    some cd.doc_id
  rw [splitColon1_granola]
  show some (pyStripWs (32 :: cd.doc_id)) = some cd.doc_id
  rw [pyStripWs_cons_space, hstrip]

theorem contains_eq_true_of_mem {l : List PyStr} {a : PyStr} (h : a ∈ l) :
    l.contains a = true := List.elem_iff.mpr h

theorem secondRun_noWrites (files : List PyStr) (docs : List (PyStr × Option CallData))
    (hdocs : ∀ kv ∈ docs, ∀ cd, kv.2 = some cd → cd.doc_id = kv.1 ∧ CleanRecord cd) :
    runSyncWrites
      (getExistingDocIds
        (files ++ (runSyncWrites (getExistingDocIds files) docs).map noteContent))
      docs = [] := by
  rw [runSyncWrites, List.filterMap_eq_nil_iff]
  intro kv hkv
  by_cases hc : (getExistingDocIds
      (files ++ (runSyncWrites (getExistingDocIds files) docs).map noteContent)).contains
        kv.1 = true
  · rw [if_pos hc]
  · rw [if_neg hc]
    rcases hkv2 : kv.2 with _ | cd
    · rfl
    · exfalso
      apply hc
      obtain ⟨hid, hclean⟩ := hdocs kv hkv cd hkv2
      apply contains_eq_true_of_mem
      by_cases h0 : (getExistingDocIds files).contains kv.1 = true
      · have hmem0 : kv.1 ∈ getExistingDocIds files := List.elem_iff.mp h0
        rw [getExistingDocIds] at hmem0 ⊢
        rw [List.filterMap_append]
        exact List.mem_append_left _ hmem0
      · have hw : cd ∈ runSyncWrites (getExistingDocIds files) docs := by
          rw [runSyncWrites]
          exact List.mem_filterMap.mpr ⟨kv, hkv, by rw [if_neg h0]; exact hkv2⟩
        have hmem1 : cd.doc_id ∈ getExistingDocIds
            (files ++ (runSyncWrites (getExistingDocIds files) docs).map noteContent) := by
          rw [getExistingDocIds, List.filterMap_append]
          exact List.mem_append_right _
            (List.mem_filterMap.mpr
              ⟨noteContent cd, List.mem_map_of_mem _ hw, fileDocId_noteContent cd hclean⟩)
        rw [hid] at hmem1
        exact hmem1

/-- C10 (amended): for every call record whose `doc_id` and `date_str` are
newline-free and whose `doc_id` carries no surrounding whitespace, the note
content written by `write_call_note` yields exactly that `doc_id` back
through the `granola_id:` frontmatter scan of `get_existing_doc_ids`; hence
re-running `main` over an unchanged set of documents, with the first run's
notes added to the output directory, writes no new files. -/
theorem granola_roundtrip_amended :
    (∀ cd : CallData, CleanRecord cd → fileDocId (noteContent cd) = some cd.doc_id) ∧
    (∀ (files : List PyStr) (docs : List (PyStr × Option CallData)),
      (∀ kv ∈ docs, ∀ cd, kv.2 = some cd → cd.doc_id = kv.1 ∧ CleanRecord cd) →
      runSyncWrites
        (getExistingDocIds
          (files ++ (runSyncWrites (getExistingDocIds files) docs).map noteContent))
        docs = []) :=
  ⟨fileDocId_noteContent, secondRun_noWrites⟩

/-- A call record whose `doc_id` contains a newline. -/
def cdNewline : CallData :=
  { doc_id := strN "a\nb", title := strN "T", date_str := strN "2024-01-01",
    date_display := strN "Jan 1", enhanced_notes := strN "n", attendees := [],
    duration := none, meeting_link := none }

set_option maxRecDepth 10000 in
/-- C10 counterexample: with a newline inside `doc_id`, the id recovered by
`get_existing_doc_ids` from the written note is not the record's `doc_id`
(the scan stops at the line break and recovers only `"a"`). -/
theorem granola_roundtrip_counterexample :
    fileDocId (noteContent cdNewline) ≠ some cdNewline.doc_id := by decide

/-- A clean concrete call record. -/
def cdClean : CallData :=
  { doc_id := strN "abc-123", title := strN "Weekly Sync", date_str := strN "2024-01-01",
    date_display := strN "January 1, 2024", enhanced_notes := strN "Discussed things.",
    attendees := [{ email := strN "x@y.z", name := strN "X" }],
    duration := some 30, meeting_link := none }

/-- Witness for C10 (amended) at a concrete clean record. -/
theorem granola_roundtrip_witness :
    fileDocId (noteContent cdClean) = some cdClean.doc_id :=
  granola_roundtrip_amended.1 cdClean (by decide)

/-! ## read_granola_cache (sync.py) -/

/-- A parsed JSON value, as produced by `json.loads`. -/
inductive JValue where
  | null
  | bool (b : Bool)
  | num (n : Int)
  | str (s : String)
  | arr (xs : List JValue)
  | obj (fields : List (String × JValue))

/-- Uncaught Python exceptions on the `read_granola_cache` path:
`.get` on a non-dict raises `AttributeError`; `json.loads` on a non-string
raises `TypeError`.  (`json.JSONDecodeError` is caught, so it is modelled by
the parser's error result, not here.) -/
inductive PyError where
  | attributeError
  | typeError
deriving DecidableEq

/-- `d.get(k, dflt)` on a parsed JSON value: only dicts have `.get`. -/
def jGet (v : JValue) (k : String) (dflt : JValue) : Except PyError JValue :=
  match v with
  | .obj fs => .ok ((fs.lookup k).getD dflt)
  | _ => .error .attributeError

/-- `read_granola_cache`, over the cache file's contents (`none` when the
file does not exist) and `json.loads` modelled as `parse` (whose `.error`
is `json.JSONDecodeError`).  The double-decoded structure, the caught
`JSONDecodeError`, and the uncaught `AttributeError`/`TypeError` paths
follow the source. -/
def read_granola_cache (file : Option String) (parse : String → Except String JValue) :
    Except PyError (JValue × JValue) :=
  match file with
  | none => .ok (.obj [], .obj [])
  | some text =>
    match parse text with
    | .error _ => .ok (.obj [], .obj [])
    | .ok outer =>
      match outer with
      | .obj fs =>
        match (fs.lookup "cache").getD (.str "\x7b\x7d") with
        | .str cacheStr =>
          match parse cacheStr with
          | .error _ => .ok (.obj [], .obj [])
          | .ok cache =>
            match jGet cache "state" (.obj []) with
            | .error e => .error e
            | .ok state =>
              match jGet state "documents" (.obj []), jGet state "documentPanels" (.obj []) with
              | .ok docs, .ok panels => .ok (docs, panels)
              | .error e, _ => .error e
              | _, .error e => .error e
        | _ => .error .typeError
      | _ => .error .attributeError

/-- C9: `read_granola_cache` returns the pair of two empty dicts, rather
than propagating an exception, whenever the cache file does not exist or the
outer or inner JSON parse fails with `JSONDecodeError`. -/
theorem read_granola_cache_degrades (file : Option String)
    (parse : String → Except String JValue)
    (h : file = none ∨
      (∃ text e, file = some text ∧ parse text = .error e) ∨
      (∃ text fs cacheStr e, file = some text ∧ parse text = .ok (.obj fs) ∧
        (fs.lookup "cache").getD (.str "\x7b\x7d") = .str cacheStr ∧
        parse cacheStr = .error e)) :
    read_granola_cache file parse = .ok (.obj [], .obj []) := by
  rcases h with rfl | ⟨text, e, rfl, hp⟩ | ⟨text, fs, cacheStr, e, rfl, hp, hcache, hinner⟩
  · rfl
  · simp only [read_granola_cache, hp]
  · simp only [read_granola_cache, hp, hcache, hinner]

/-- Witness for C9: a parser that always fails, on an existing file. -/
theorem read_granola_cache_degrades_witness :
    read_granola_cache (some "garbage") (fun _ => .error "bad json") =
      .ok (.obj [], .obj []) :=
  read_granola_cache_degrades (some "garbage") (fun _ => .error "bad json")
    (Or.inr (Or.inl ⟨"garbage", "bad json", rfl, rfl⟩))

/-! ## The transcript coordination protocol

The State Compiler and the stop gates described by the specification are
not part of the repository snapshot (only the Granola sync script is), so
every definition in this section is modelled from the specification. -/

/-- Modelled from the spec: the signal carried by a post (§3): `READY`,
`WAITING(target)`, `BLOCKED(reason)`, or `CLOSE`. -/
inductive Signal where
  | ready
  | waiting (target : String)
  | blocked (reason : String)
  | close
deriving DecidableEq, BEq

/-- Modelled from the spec: one tokenized line of transcript text (§6):
either a post-header line `[<time>] <author>`, or a body line carrying the
recognized signal markers occurring in it (in order) and the agents it
`@mentions`. -/
inductive TLine where
  | header (author : String)
  | body (markers : List Signal) (mentions : List String)
deriving DecidableEq

/-- Modelled from the spec: session status recorded in the transcript
header (§3). -/
inductive SessionStatus where
  | active
  | closed
deriving DecidableEq

/-- Modelled from the spec: a transcript — session metadata plus the
ordered lines of the shared document (§3). -/
structure Transcript where
  status : SessionStatus
  expected_agents : List String
  lines : List TLine
deriving DecidableEq

/-- Modelled from the spec: a parsed post — author plus the recognized
signal markers and mentions of its body (§3, §6). -/
structure Post where
  author : String
  markers : List Signal
  mentions : List String
deriving DecidableEq

def groupPostsAux : List Post → List TLine → List Post
  | acc, [] => acc.reverse
  | acc, .header a :: rest =>
    groupPostsAux ({ author := a, markers := [], mentions := [] } :: acc) rest
  | acc, .body ms mns :: rest =>
    match acc with
    | [] => groupPostsAux [] rest
    | p :: ps =>
      groupPostsAux
        ({ p with markers := p.markers ++ ms, mentions := p.mentions ++ mns } :: ps) rest

/-- Modelled from the spec: split the transcript into posts bounded by
post-header lines; everything until the next header belongs to the post
(§4.1, §6).  Body lines before any header are ignored. -/
def groupPosts (lines : List TLine) : List Post := groupPostsAux [] lines

/-- Modelled from the spec: a post's signal is the last recognized signal
marker inside its body (§4.1). -/
def postSignal (p : Post) : Option Signal := p.markers.getLast?

/-- Overwrite the entry for agent `a` in an association list, inserting at
the end when absent. -/
def upsert : List (String × Signal) → String → Signal → List (String × Signal)
  | [], a, s => [(a, s)]
  | (b, t) :: rest, a, s =>
    if b = a then (a, s) :: rest else (b, t) :: upsert rest a s

/-- Modelled from the spec: per-agent entries built by iterating posts in
document order and overwriting each agent's entry with its latest
signal (§4.1). -/
def lastEntries (posts : List Post) : List (String × Signal) :=
  posts.foldl
    (fun st p =>
      match postSignal p with
      | none => st
      | some s => upsert st p.author s)
    []

/-- Modelled from the spec: the State Snapshot record (§3). -/
structure Snapshot where
  has_close : Bool
  agents_ready : List String
  agents_waiting : List (String × String)
  agents_blocked : List (String × String)
  coordination_complete : Bool
  update_count : Nat
  updated_at : Nat
deriving DecidableEq

def entriesReady (st : List (String × Signal)) : List String :=
  st.filterMap (fun e => match e.2 with | .ready => some e.1 | _ => none)

def entriesWaiting (st : List (String × Signal)) : List (String × String) :=
  st.filterMap (fun e => match e.2 with | .waiting tgt => some (e.1, tgt) | _ => none)

def entriesBlocked (st : List (String × Signal)) : List (String × String) :=
  st.filterMap (fun e => match e.2 with | .blocked r => some (e.1, r) | _ => none)

/-- Modelled from the spec: `CLOSE` is a session-level signal — presence
anywhere in the transcript sets `has_close` regardless of author (§4.1). -/
def hasCloseMarker (posts : List Post) : Bool :=
  posts.any (fun p => p.markers.any (fun m => m == Signal.close))

/-- Modelled from the spec: the State Compiler — compile transcript content
into a State Snapshot (§4.1, §3); `update_count` and `updated_at` are
provenance supplied by the publication context, not derived from the
transcript content. -/
def compileSnapshot (t : Transcript) (update_count : Nat) (updated_at : Nat) : Snapshot :=
  let posts := groupPosts t.lines
  let st := lastEntries posts
  let ready := entriesReady st
  let waiting := entriesWaiting st
  let hc := hasCloseMarker posts
  { has_close := hc
    agents_ready := ready
    agents_waiting := waiting
    agents_blocked := entriesBlocked st
    coordination_complete :=
      hc || (!ready.isEmpty && waiting.isEmpty &&
             t.expected_agents.all (fun a => ready.contains a))
    update_count := update_count
    updated_at := updated_at }

/-- Forget the provenance fields of a snapshot. -/
def eraseProv (s : Snapshot) : Snapshot := { s with update_count := 0, updated_at := 0 }

/-- C1: the snapshot is a pure function of the transcript content — two
compilations of the same transcript text agree on every field except the
provenance fields `update_count` and `updated_at`. -/
theorem compileSnapshot_pure (t : Transcript) (n1 a1 n2 a2 : Nat) :
    eraseProv (compileSnapshot t n1 a1) = eraseProv (compileSnapshot t n2 a2) := rfl

/-- C2: `coordination_complete` holds iff `has_close`, or `agents_ready` is
non-empty, `agents_waiting` is empty, and every expected agent is a member
of `agents_ready`. -/
theorem coordination_complete_iff (t : Transcript) (n a : Nat) :
    (compileSnapshot t n a).coordination_complete = true ↔
      ((compileSnapshot t n a).has_close = true ∨
       ((compileSnapshot t n a).agents_ready ≠ [] ∧
        (compileSnapshot t n a).agents_waiting = [] ∧
        ∀ x ∈ t.expected_agents, x ∈ (compileSnapshot t n a).agents_ready)) := by
  simp only [compileSnapshot, Bool.or_eq_true, Bool.and_eq_true, Bool.not_eq_true',
    List.all_eq_true, List.isEmpty_iff, List.isEmpty_eq_false, List.elem_iff]
  tauto

/-- Modelled from the spec: the signal of an agent's latest
signal-carrying post, in document order. -/
def lastPostSignal (posts : List Post) (agent : String) : Option Signal :=
  ((posts.filter (fun p => p.author == agent && (postSignal p).isSome)).getLast?).bind
    postSignal

theorem lookup_upsert (st : List (String × Signal)) (a : String) (s : Signal)
    (b : String) :
    (upsert st a s).lookup b = if b = a then some s else st.lookup b := by
  induction st with
  | nil =>
    by_cases hba : b = a
    · subst hba
      simp [upsert, List.lookup]
    · have hb : (b == a) = false := beq_eq_false_iff_ne.mpr hba
      simp [upsert, List.lookup, hb, hba]
  | cons hd tl ih =>
    rcases hd with ⟨k, v⟩
    rw [upsert]
    by_cases hka : k = a
    · subst hka
      rw [if_pos rfl]
      by_cases hba : b = k
      · subst hba
        simp [List.lookup]
      · have hb : (b == k) = false := beq_eq_false_iff_ne.mpr hba
        simp [List.lookup, hb, hba]
    · rw [if_neg hka]
      by_cases hbk : b = k
      · subst hbk
        have hba : ¬b = a := fun hh => hka hh
        simp [List.lookup, hba]
      · have hb : (b == k) = false := beq_eq_false_iff_ne.mpr hbk
        simp only [List.lookup, hb]
        exact ih

theorem lastEntries_concat (posts : List Post) (p : Post) :
    lastEntries (posts ++ [p]) =
      match postSignal p with
      | none => lastEntries posts
      | some s => upsert (lastEntries posts) p.author s := by
  unfold lastEntries
  rw [List.foldl_append]
  rfl

theorem lookup_lastEntries (posts : List Post) (agent : String) :
    (lastEntries posts).lookup agent = lastPostSignal posts agent := by
  induction posts using List.reverseRecOn with
  | nil => rfl
  | append_singleton ps p ih =>
    rw [lastEntries_concat]
    unfold lastPostSignal
    rw [List.filter_append]
    cases hps : postSignal p with
    | none =>
      have hfp : List.filter (fun q => q.author == agent && (postSignal q).isSome) [p]
          = [] := by
        simp [List.filter, hps]
      rw [hfp, List.append_nil]
      exact ih.trans (by rfl)
    | some s =>
      by_cases ha : p.author = agent
      · have hfp : List.filter (fun q => q.author == agent && (postSignal q).isSome) [p]
            = [p] := by
          simp [List.filter, hps, ha]
        rw [hfp, List.getLast?_concat, lookup_upsert,
          if_pos (show agent = p.author from ha.symm)]
        show some s = postSignal p
        exact hps.symm
      · have hb : (p.author == agent) = false := beq_eq_false_iff_ne.mpr ha
        have hfp : List.filter (fun q => q.author == agent && (postSignal q).isSome) [p]
            = [] := by
          simp [List.filter, hb]
        rw [hfp, List.append_nil, lookup_upsert]
        rw [if_neg (fun hh => ha hh.symm)]
        exact ih.trans (by rfl)

def keysOf (st : List (String × Signal)) : List String := st.map Prod.fst

theorem mem_keysOf_upsert {st : List (String × Signal)} {a b : String} {s : Signal}
    (h : b ∈ keysOf (upsert st a s)) : b = a ∨ b ∈ keysOf st := by
  induction st with
  | nil => simpa [upsert, keysOf] using h
  | cons hd tl ih =>
    rcases hd with ⟨k, v⟩
    rw [upsert] at h
    by_cases hka : k = a
    · rw [if_pos hka] at h
      simp only [keysOf, List.map_cons, List.mem_cons] at h ⊢
      rcases h with rfl | h
      · exact Or.inl rfl
      · exact Or.inr (Or.inr h)
    · rw [if_neg hka] at h
      simp only [keysOf, List.map_cons, List.mem_cons] at h ⊢
      rcases h with rfl | h
      · exact Or.inr (Or.inl rfl)
      · rcases ih h with h1 | h1
        · exact Or.inl h1
        · exact Or.inr (Or.inr h1)

theorem nodup_keys_upsert {st : List (String × Signal)} {a : String} {s : Signal}
    (h : (keysOf st).Nodup) : (keysOf (upsert st a s)).Nodup := by
  induction st with
  | nil => simp [upsert, keysOf]
  | cons hd tl ih =>
    rcases hd with ⟨k, v⟩
    rw [upsert]
    by_cases hka : k = a
    · rw [if_pos hka]
      subst hka
      simpa [keysOf] using h
    · rw [if_neg hka]
      simp only [keysOf, List.map_cons, List.nodup_cons] at h ⊢
      refine ⟨fun hmem => ?_, ih h.2⟩
      rcases mem_keysOf_upsert hmem with h1 | h1
      · exact hka h1
      · exact h.1 h1

theorem nodup_keys_lastEntries (posts : List Post) :
    (keysOf (lastEntries posts)).Nodup := by
  induction posts using List.reverseRecOn with
  | nil => simp [lastEntries, keysOf]
  | append_singleton ps p ih =>
    rw [lastEntries_concat]
    cases postSignal p with
    | none => exact ih
    | some s => exact nodup_keys_upsert ih

theorem mem_iff_lookup {st : List (String × Signal)} (h : (keysOf st).Nodup)
    (a : String) (s : Signal) : (a, s) ∈ st ↔ st.lookup a = some s := by
  induction st with
  | nil => simp [List.lookup]
  | cons hd tl ih =>
    rcases hd with ⟨k, v⟩
    simp only [keysOf, List.map_cons, List.nodup_cons] at h
    by_cases hak : a = k
    · subst hak
      simp only [List.lookup, beq_self_eq_true, List.mem_cons]
      constructor
      · rintro (heq | hmem)
        · injection heq with h1 h2
          rw [h2]
        · exact absurd (List.mem_map_of_mem Prod.fst hmem) h.1
      · intro hv
        exact Or.inl (by rw [Option.some_inj.mp hv])
    · have hb : (a == k) = false := beq_eq_false_iff_ne.mpr hak
      simp only [List.lookup, hb, List.mem_cons]
      rw [← ih h.2]
      constructor
      · rintro (heq | hmem)
        · injection heq with h1 h2
          exact absurd h1 hak
        · exact hmem
      · exact Or.inr

theorem mem_entriesReady (st : List (String × Signal)) (a : String) :
    a ∈ entriesReady st ↔ (a, Signal.ready) ∈ st := by
  unfold entriesReady
  rw [List.mem_filterMap]
  constructor
  · rintro ⟨⟨b, sg⟩, hmem, heq⟩
    cases sg <;> simp at heq
    rwa [heq] at hmem
  · intro hm
    exact ⟨(a, .ready), hm, rfl⟩

theorem mem_entriesWaiting (st : List (String × Signal)) (a tgt : String) :
    (a, tgt) ∈ entriesWaiting st ↔ (a, Signal.waiting tgt) ∈ st := by
  unfold entriesWaiting
  rw [List.mem_filterMap]
  constructor
  · rintro ⟨⟨b, sg⟩, hmem, heq⟩
    cases sg <;> simp at heq
    rwa [heq.1, heq.2] at hmem
  · intro hm
    exact ⟨(a, .waiting tgt), hm, rfl⟩

theorem mem_entriesBlocked (st : List (String × Signal)) (a r : String) :
    (a, r) ∈ entriesBlocked st ↔ (a, Signal.blocked r) ∈ st := by
  unfold entriesBlocked
  rw [List.mem_filterMap]
  constructor
  · rintro ⟨⟨b, sg⟩, hmem, heq⟩
    cases sg <;> simp at heq
    rwa [heq.1, heq.2] at hmem
  · intro hm
    exact ⟨(a, .blocked r), hm, rfl⟩

/-- C7: within a single post the post's signal is the last recognized
signal marker in its body; and across posts, the per-agent entries of
`agents_ready` / `agents_waiting` / `agents_blocked` are exactly those of
the latest signal-carrying post of that agent in document order, earlier
entries being overwritten. -/
theorem parsing_last_signal_wins :
    (∀ (a : String) (ms : List Signal) (s : Signal) (mns : List String),
        postSignal { author := a, markers := ms ++ [s], mentions := mns } = some s) ∧
    (∀ (t : Transcript) (n u : Nat) (agent : String),
      (agent ∈ (compileSnapshot t n u).agents_ready ↔
        lastPostSignal (groupPosts t.lines) agent = some .ready) ∧
      (∀ tgt, (agent, tgt) ∈ (compileSnapshot t n u).agents_waiting ↔
        lastPostSignal (groupPosts t.lines) agent = some (.waiting tgt)) ∧
      (∀ r, (agent, r) ∈ (compileSnapshot t n u).agents_blocked ↔
        lastPostSignal (groupPosts t.lines) agent = some (.blocked r))) := by
  constructor
  · intro a ms s mns
    simp [postSignal]
  · intro t n u agent
    have hnd := nodup_keys_lastEntries (groupPosts t.lines)
    have hlook := lookup_lastEntries (groupPosts t.lines) agent
    refine ⟨?_, fun tgt => ?_, fun r => ?_⟩
    · show agent ∈ entriesReady (lastEntries (groupPosts t.lines)) ↔ _
      rw [mem_entriesReady, mem_iff_lookup hnd, hlook]
    · show (agent, tgt) ∈ entriesWaiting (lastEntries (groupPosts t.lines)) ↔ _
      rw [mem_entriesWaiting, mem_iff_lookup hnd, hlook]
    · show (agent, r) ∈ entriesBlocked (lastEntries (groupPosts t.lines)) ↔ _
      rw [mem_entriesBlocked, mem_iff_lookup hnd, hlook]

/-! ## The Agent Stop Gate (modelled from the spec, §4.2) -/

/-- Modelled from the spec: per-(session, agent) retry record (§3). -/
structure RetryState where
  attempt : Nat
  last_block_time : Nat
deriving DecidableEq

/-- Modelled from the spec: the agent gate's attempt ceiling (§4.2). -/
def MAX_ATTEMPTS : Nat := 5

/-- Modelled from the spec: the fixed backoff schedule `15s, 30s, 60s,
120s, 120s…`, clamped at the last entry, indexed by the 1-based attempt
count (§4.2). -/
def backoffHint (attempt : Nat) : Nat := [15, 30, 60, 120].getD (attempt - 1) 120

/-- A gate decision: approve, or block with a reason, a wait hint and the
recent posts that mention the agent. -/
inductive Decision where
  | approve (reason : String)
  | block (reason : String) (waitHint : Nat) (mentionPosts : List Post)

def Decision.isApprove : Decision → Bool
  | .approve _ => true
  | .block _ _ _ => false

def Decision.hintOf : Decision → Nat
  | .approve _ => 0
  | .block _ h _ => h

/-- Modelled from the spec: one gate invocation's environment: the
continuation flag, the transcript file (`none` = missing, `some none` =
unreadable/unparsable), the cached snapshot file (same encoding), the
persisted retry state and the current time. -/
structure GateEnv where
  continuation : Bool
  transcriptFile : Option (Option Transcript)
  snapshotFile : Option (Option Snapshot)
  retry : Option RetryState
  now : Nat

/-- Modelled from the spec: session discovery — an active session exists
when the transcript is present, parses, and records `status: active`
(§4.2 step 2, §6). -/
def activeTranscript (env : GateEnv) : Option Transcript :=
  match env.transcriptFile with
  | some (some t) => if t.status = SessionStatus.active then some t else none
  | _ => none

/-- Modelled from the spec: the snapshot consulted by the gate — the cached
snapshot when present and parsable, else a direct parse of the transcript
(§2, §4.2 step 4). -/
def currentSnapshot (env : GateEnv) (t : Transcript) : Snapshot :=
  match env.snapshotFile with
  | some (some s) => s
  | _ => compileSnapshot t 0 env.now

/-- Modelled from the spec: the other agents recorded `WAITING` on this
agent (§4.2 step 4). -/
def waitingOn (s : Snapshot) (agent : String) : List String :=
  s.agents_waiting.filterMap
    (fun e => if e.2 = agent ∧ e.1 ≠ agent then some e.1 else none)

/-- Modelled from the spec: up to the 3 most recent posts that `@mention`
this agent (§4.2 step 5; bodies are tokenized, so the 500-character
truncation is not modelled). -/
def mentionsOf (t : Transcript) (agent : String) : List Post :=
  ((groupPosts t.lines).filter (fun p => p.mentions.contains agent)).reverse.take 3

/-- Modelled from the spec: the Agent Stop Gate's single operation
`evaluate_stop` (§4.2): the decision together with the retry state as
persisted after the invocation (`none` = cleared). -/
def evaluate_stop (env : GateEnv) (agent : String) : Decision × Option RetryState :=
  if env.continuation then (.approve "continuation", none)
  else
    match activeTranscript env with
    | none => (.approve "no active session", none)
    | some t =>
      let attempts := (env.retry.map RetryState.attempt).getD 0
      if MAX_ATTEMPTS ≤ attempts then (.approve "max attempts reached", none)
      else
        let s := currentSnapshot env t
        if s.has_close then (.approve "CLOSE posted", none)
        else
          let waiters := waitingOn s agent
          if waiters.isEmpty then
            if s.agents_ready.contains agent then
              (.approve "agent ready and nobody waiting", none)
            else if s.coordination_complete then
              (.approve "coordination complete", none)
            else
              (.block ("coordination not yet complete: " ++
                  toString s.agents_ready.length ++ "/" ++
                  toString t.expected_agents.length ++ " agents ready")
                 (backoffHint (attempts + 1)) (mentionsOf t agent),
               some { attempt := attempts + 1, last_block_time := env.now })
          else
            (.block ("waiting on this agent: " ++ String.intercalate ", " waiters)
               (backoffHint (attempts + 1)) (mentionsOf t agent),
             some { attempt := attempts + 1, last_block_time := env.now })

/-- C3: CLOSE dominates — whenever the snapshot consulted by the gate has
`has_close = true`, `evaluate_stop` approves for every agent, even when
other agents are recorded `WAITING` on it. -/
theorem gate_close_dominates (env : GateEnv) (agent : String) (t : Transcript)
    (ht : activeTranscript env = some t)
    (hc : (currentSnapshot env t).has_close = true) :
    (evaluate_stop env agent).1.isApprove = true := by
  unfold evaluate_stop
  by_cases hcont : env.continuation = true
  · simp [hcont, Decision.isApprove]
  · simp only [Bool.not_eq_true] at hcont
    by_cases hmax : MAX_ATTEMPTS ≤ (env.retry.map RetryState.attempt).getD 0
    · simp [hcont, ht, hmax, Decision.isApprove]
    · simp [hcont, ht, hmax, hc, Decision.isApprove]

def snapC3 : Snapshot :=
  { has_close := true, agents_ready := [], agents_waiting := [("b", "a")],
    agents_blocked := [], coordination_complete := true,
    update_count := 1, updated_at := 0 }

def tC3 : Transcript :=
  { status := .active, expected_agents := ["a", "b"], lines := [] }

def envC3 : GateEnv :=
  { continuation := false, transcriptFile := some (some tC3),
    snapshotFile := some (some snapC3), retry := none, now := 0 }

/-- Witness for C3: a snapshot with `has_close` and agent `b` waiting on
`a`; the gate still approves for `a`. -/
theorem gate_close_dominates_witness :
    (evaluate_stop envC3 "a").1.isApprove = true :=
  gate_close_dominates envC3 "a" tC3 rfl rfl

/-- C4: fail-open at the attempt ceiling — with persisted
`attempt ≥ MAX_ATTEMPTS`, the next invocation approves regardless of
snapshot content and the retry record is cleared. -/
theorem gate_fail_open (env : GateEnv) (agent : String) (r : RetryState)
    (hr : env.retry = some r) (hmax : MAX_ATTEMPTS ≤ r.attempt) :
    (evaluate_stop env agent).1.isApprove = true ∧
    (evaluate_stop env agent).2 = none := by
  unfold evaluate_stop
  by_cases hcont : env.continuation = true
  · simp [hcont, Decision.isApprove]
  · simp only [Bool.not_eq_true] at hcont
    cases hat : activeTranscript env with
    | none => simp [hcont, hat, Decision.isApprove]
    | some t =>
      have hm : MAX_ATTEMPTS ≤ (env.retry.map RetryState.attempt).getD 0 := by
        rw [hr]
        simpa using hmax
      simp [hcont, hat, hm, Decision.isApprove]

def snapC4 : Snapshot :=
  { has_close := false, agents_ready := [], agents_waiting := [("b", "a")],
    agents_blocked := [], coordination_complete := false,
    update_count := 1, updated_at := 0 }

def envC4 : GateEnv :=
  { continuation := false, transcriptFile := some (some tC3),
    snapshotFile := some (some snapC4),
    retry := some { attempt := 5, last_block_time := 0 }, now := 7 }

/-- Witness for C4 at a concrete environment with `attempt = 5`. -/
theorem gate_fail_open_witness :
    (evaluate_stop envC4 "a").1.isApprove = true ∧
    (evaluate_stop envC4 "a").2 = none :=
  gate_fail_open envC4 "a" { attempt := 5, last_block_time := 0 } (by rfl) (by decide)

/-- C5: the gate is total under degraded storage — a missing or unparsable
transcript yields an approval; a missing or unparsable snapshot makes the
gate fall back to a direct parse of the transcript; and every invocation
returns a decision (the model is a total function: it cannot raise). -/
theorem gate_total_degraded (env : GateEnv) (agent : String) :
    ((env.transcriptFile = none ∨ env.transcriptFile = some none) →
      (evaluate_stop env agent).1.isApprove = true) ∧
    ((env.snapshotFile = none ∨ env.snapshotFile = some none) →
      ∀ t, currentSnapshot env t = compileSnapshot t 0 env.now) ∧
    ((evaluate_stop env agent).1.isApprove = true ∨
      ∃ reason hint posts, (evaluate_stop env agent).1 = .block reason hint posts) := by
  refine ⟨fun h => ?_, fun h t => ?_, ?_⟩
  · have hat : activeTranscript env = none := by
      rcases h with h | h <;> simp [activeTranscript, h]
    unfold evaluate_stop
    by_cases hcont : env.continuation = true
    · simp [hcont, Decision.isApprove]
    · simp only [Bool.not_eq_true] at hcont
      simp [hcont, hat, Decision.isApprove]
  · rcases h with h | h <;> simp [currentSnapshot, h]
  · rcases hd : (evaluate_stop env agent).1 with r | ⟨r, hint, posts⟩
    · exact Or.inl rfl
    · exact Or.inr ⟨r, hint, posts, rfl⟩

def envC5 : GateEnv :=
  { continuation := false, transcriptFile := some none,
    snapshotFile := some none, retry := none, now := 0 }

/-- Witness for C5: both files exist but are unparsable; the gate approves. -/
theorem gate_total_degraded_witness :
    (evaluate_stop envC5 "a").1.isApprove = true :=
  (gate_total_degraded envC5 "a").1 (Or.inr rfl)

theorem backoffHint_schedule (k : Nat) :
    backoffHint (k + 1) =
      (if k + 1 = 1 then 15 else if k + 1 = 2 then 30
       else if k + 1 = 3 then 60 else 120) := by
  rcases k with _ | _ | _ | m
  · decide
  · decide
  · decide
  · have h1 : ¬(m + 3 + 1 = 1) := by omega
    have h2 : ¬(m + 3 + 1 = 2) := by omega
    have h3 : ¬(m + 3 + 1 = 3) := by omega
    rw [if_neg h1, if_neg h2, if_neg h3]
    show [15, 30, 60, 120].getD (m + 3) 120 = 120
    rcases m with _ | m <;> simp

/-- C6: every blocking invocation persists a retry record whose attempt
counter is the previous one plus 1 (with the block time), and its wait hint
follows the fixed schedule 15s, 30s, 60s, 120s clamped to the last entry. -/
theorem gate_block_backoff (env : GateEnv) (agent : String)
    (hb : (evaluate_stop env agent).1.isApprove = false) :
    (evaluate_stop env agent).2 =
      some { attempt := (env.retry.map RetryState.attempt).getD 0 + 1,
             last_block_time := env.now } ∧
    Decision.hintOf (evaluate_stop env agent).1 =
      (if (env.retry.map RetryState.attempt).getD 0 + 1 = 1 then 15
       else if (env.retry.map RetryState.attempt).getD 0 + 1 = 2 then 30
       else if (env.retry.map RetryState.attempt).getD 0 + 1 = 3 then 60
       else 120) := by
  rw [← backoffHint_schedule]
  unfold evaluate_stop at hb ⊢
  by_cases hcont : env.continuation = true
  · simp [hcont, Decision.isApprove] at hb
  · simp only [Bool.not_eq_true] at hcont
    cases hat : activeTranscript env with
    | none => simp [hcont, hat, Decision.isApprove] at hb
    | some t =>
      by_cases hmax : MAX_ATTEMPTS ≤ (env.retry.map RetryState.attempt).getD 0
      · simp [hcont, hat, hmax, Decision.isApprove] at hb
      · by_cases hclose : (currentSnapshot env t).has_close = true
        · simp [hcont, hat, hmax, hclose, Decision.isApprove] at hb
        · by_cases hw : (waitingOn (currentSnapshot env t) agent).isEmpty = true
          · by_cases hready : agent ∈ (currentSnapshot env t).agents_ready
            · simp [hcont, hat, hmax, hclose, hw, hready, Decision.isApprove] at hb
            · by_cases hcc : (currentSnapshot env t).coordination_complete = true
              · simp [hcont, hat, hmax, hclose, hw, hready, hcc,
                  Decision.isApprove] at hb
              · simp [hcont, hat, hmax, hclose, hw, hready, hcc,
                  Decision.isApprove, Decision.hintOf]
          · simp [hcont, hat, hmax, hclose, hw,
              Decision.isApprove, Decision.hintOf]

def tC6 : Transcript :=
  { status := .active, expected_agents := ["a", "b"], lines := [] }

def envC6 : GateEnv :=
  { continuation := false, transcriptFile := some (some tC6),
    snapshotFile := none, retry := none, now := 3 }

/-- Witness for C6: a first block persists attempt 1 with wait hint 15s. -/
theorem gate_block_backoff_witness :
    (evaluate_stop envC6 "a").2 = some { attempt := 1, last_block_time := 3 } ∧
    Decision.hintOf (evaluate_stop envC6 "a").1 = 15 :=
  ⟨(gate_block_backoff envC6 "a" (by rfl)).1,
   (gate_block_backoff envC6 "a" (by rfl)).2⟩

def tW1 : Transcript :=
  { status := .active, expected_agents := ["a", "b"],
    lines := [.header "a", .body [.ready] []] }

/-- Witness for C1 at a concrete transcript and provenance values. -/
theorem compileSnapshot_pure_witness :
    eraseProv (compileSnapshot tW1 1 2) = eraseProv (compileSnapshot tW1 3 4) :=
  compileSnapshot_pure tW1 1 2 3 4

def tW2 : Transcript :=
  { status := .active, expected_agents := ["a", "b"],
    lines := [.header "a", .body [.ready] [], .header "b", .body [.ready] []] }

/-- Witness for C2: both expected agents READY, no WAITING, no CLOSE — the
derived completion flag is set. -/
theorem coordination_complete_iff_witness :
    (compileSnapshot tW2 0 0).coordination_complete = true :=
  (coordination_complete_iff tW2 0 0).mpr
    (Or.inr ⟨by decide, by decide, by decide⟩)

def tW7 : Transcript :=
  { status := .active, expected_agents := ["a", "b"],
    lines := [.header "a", .body [.ready] [], .header "b", .body [.ready] [],
              .header "a", .body [.waiting "b"] []] }

/-- Witness for C7: agent `a` posts READY and later WAITING; the snapshot
records the later signal. -/
theorem parsing_last_signal_wins_witness :
    ("a", "b") ∈ (compileSnapshot tW7 0 0).agents_waiting :=
  ((parsing_last_signal_wins.2 tW7 0 0 "a").2.1 "b").mpr (by decide)
